import Mathlib

/-!
# Verification of docker-web-control (`src/server.py`)

A shallow embedding of the state-reconciliation, portability, store and
upload-handling logic of `src/server.py`, together with proofs of the
specification claims about it.

Conventions of the embedding:
* Python `dict`s (which preserve insertion order and overwrite in place)
  become association lists `List (String × α)` manipulated through
  `dictInsert` / `dictGet`.
* Python strings are Lean `String`s; byte strings handled by the upload
  parser are also modelled as `String`s (one `Char` per byte; the parser
  only ever matches ASCII markers, where UTF-8 decoding is the identity).
* Calls into external libraries (`hashlib.md5`, `json.loads`,
  `json.dumps`) are abstracted as function parameters; calls into the
  external container engine are abstracted as state-transition or
  result-valued parameters.
* Exceptions become `Except`/`Option` results; an uncaught Python
  exception is an `error` value that the surrounding code does not
  handle.
-/

namespace DockerWebControl

/-! ## Python string primitives -/

/-- ASCII whitespace, as recognised by Python `str.strip()` (restricted to
the ASCII range; all strings handled by the stores are ASCII-range data). -/
def pyIsSpace (c : Char) : Bool :=
  c == ' ' || c == '\t' || c == '\n' || c == '\r' || c == '\x0b' || c == '\x0c'

/-- Python `str.strip()` on a character list: drop leading and trailing
whitespace. -/
def stripChars (s : List Char) : List Char :=
  ((s.dropWhile pyIsSpace).reverse.dropWhile pyIsSpace).reverse

/-- Python `str.strip()`. -/
def pyStrip (s : String) : String := ⟨stripChars s.data⟩

theorem dropWhile_dropWhile (p : Char → Bool) (l : List Char) :
    (l.dropWhile p).dropWhile p = l.dropWhile p := by
  induction l with
  | nil => rfl
  | cons c t ih =>
    by_cases h : p c
    · simp [List.dropWhile_cons, h, ih]
    · simp [List.dropWhile_cons, h]

theorem dropWhile_head_not (p : Char → Bool) (l : List Char) (c : Char) (t : List Char)
    (h : l.dropWhile p = c :: t) : p c = false := by
  induction l with
  | nil => simp at h
  | cons a l ih =>
    by_cases ha : p a
    · exact ih (by simpa [List.dropWhile_cons, ha] using h)
    · rw [List.dropWhile_cons, if_neg (by simpa using ha)] at h
      cases h
      simpa using ha

theorem stripChars_idem (s : List Char) : stripChars (stripChars s) = stripChars s := by
  unfold stripChars
  set a := s.dropWhile pyIsSpace with ha
  set d := a.reverse.dropWhile pyIsSpace with hd
  have hsuffix : d <:+ a.reverse := hd ▸ List.dropWhile_suffix _
  obtain ⟨u, hu⟩ := hsuffix
  have hstep1 : d.reverse.dropWhile pyIsSpace = d.reverse := by
    cases hdr : d.reverse with
    | nil => simp
    | cons c t =>
      have hfail : pyIsSpace c = false := by
        have haform : a = c :: (t ++ u.reverse) := by
          have : a = d.reverse ++ u.reverse := by
            have := congrArg List.reverse hu
            simpa [List.reverse_append] using this.symm
          rw [this, hdr]
          simp
        exact dropWhile_head_not pyIsSpace s c (t ++ u.reverse) (ha ▸ haform ▸ rfl)
      rw [List.dropWhile_cons, if_neg (by simp [hfail])]
  rw [hstep1, List.reverse_reverse]
  have hstep2 : d.dropWhile pyIsSpace = d := by
    rw [hd]
    exact dropWhile_dropWhile pyIsSpace a.reverse
  rw [hstep2]

theorem pyStrip_idem (s : String) : pyStrip (pyStrip s) = pyStrip s := by
  unfold pyStrip
  simp [stripChars_idem]

/-! ## Python dict as an ordered association list

`dictInsert` models Python `d[k] = v`: overwrite in place if the key is
present (keys in a Python dict are unique, so only one occurrence can
match), append otherwise. `dictGet` models `d.get(k)`. -/

def dictInsert {α : Type} (k : String) (v : α) : List (String × α) → List (String × α)
  | [] => [(k, v)]
  | p :: t => if p.1 = k then (k, v) :: t else p :: dictInsert k v t

def dictGet {α : Type} (k : String) : List (String × α) → Option α
  | [] => none
  | p :: t => if p.1 = k then some p.2 else dictGet k t

theorem dictGet_dictInsert {α : Type} (k k' : String) (v : α) (m : List (String × α)) :
    dictGet k (dictInsert k' v m) = if k = k' then some v else dictGet k m := by
  induction m with
  | nil =>
    by_cases h : k = k'
    · simp [dictInsert, dictGet, h]
    · have h' : ¬ k' = k := fun he => h he.symm
      simp [dictInsert, dictGet, h, h']
  | cons p t ih =>
    by_cases hp : p.1 = k'
    · by_cases hk : k = k'
      · rw [dictInsert, if_pos hp, dictGet, if_pos hk.symm]
        simp [hk]
      · have hk' : ¬ k' = k := fun he => hk he.symm
        have hpk : ¬ p.1 = k := fun he => hk (he.symm.trans hp)
        rw [dictInsert, if_pos hp, dictGet, if_neg hk', if_neg hk, dictGet, if_neg hpk]
    · by_cases hpk : p.1 = k
      · have hk : ¬ k = k' := fun h => hp (hpk.trans h)
        rw [dictInsert, if_neg hp, dictGet, if_pos hpk, if_neg hk, dictGet, if_pos hpk]
      · rw [dictInsert, if_neg hp, dictGet, if_neg hpk, ih]
        by_cases hk : k = k'
        · simp [hk]
        · simp [hk, dictGet, hpk]

theorem mem_keys_dictInsert {α : Type} (a k : String) (v : α) (m : List (String × α)) :
    a ∈ (dictInsert k v m).map Prod.fst ↔ a = k ∨ a ∈ m.map Prod.fst := by
  induction m with
  | nil => simp [dictInsert]
  | cons p t ih =>
    by_cases hp : p.1 = k
    · rw [dictInsert, if_pos hp]
      simp only [List.map_cons, List.mem_cons, hp]
      tauto
    · rw [dictInsert, if_neg hp]
      simp only [List.map_cons, List.mem_cons, ih]
      tauto

theorem dictInsert_keys_nodup {α : Type} (k : String) (v : α) (m : List (String × α))
    (h : (m.map Prod.fst).Nodup) : ((dictInsert k v m).map Prod.fst).Nodup := by
  induction m with
  | nil => simp [dictInsert]
  | cons p t ih =>
    simp only [List.map_cons, List.nodup_cons] at h
    by_cases hp : p.1 = k
    · rw [dictInsert, if_pos hp]
      simp only [List.map_cons, List.nodup_cons]
      exact ⟨hp ▸ h.1, h.2⟩
    · rw [dictInsert, if_neg hp]
      simp only [List.map_cons, List.nodup_cons]
      refine ⟨?_, ih h.2⟩
      rw [mem_keys_dictInsert]
      rintro (h1 | h2)
      · exact hp h1
      · exact h.1 h2

theorem dictInsert_all {α : Type} (P : String × α → Prop) (k : String) (v : α)
    (hkv : P (k, v)) (m : List (String × α)) (hm : ∀ q ∈ m, P q) :
    ∀ q ∈ dictInsert k v m, P q := by
  induction m with
  | nil =>
    intro q hq
    simp only [dictInsert, List.mem_singleton] at hq
    exact hq ▸ hkv
  | cons p t ih =>
    intro q hq
    by_cases hp : p.1 = k
    · rw [dictInsert, if_pos hp] at hq
      rcases List.mem_cons.mp hq with hq | hq
      · exact hq ▸ hkv
      · exact hm q (List.mem_cons_of_mem p hq)
    · rw [dictInsert, if_neg hp] at hq
      rcases List.mem_cons.mp hq with hq | hq
      · exact hq ▸ hm p (List.mem_cons_self p t)
      · exact ih (fun r hr => hm r (List.mem_cons_of_mem p hr)) q hq

theorem dictInsert_not_mem {α : Type} (k : String) (v : α) (m : List (String × α))
    (h : k ∉ m.map Prod.fst) : dictInsert k v m = m ++ [(k, v)] := by
  induction m with
  | nil => rfl
  | cons p t ih =>
    simp only [List.map_cons, List.mem_cons] at h
    push_neg at h
    rw [dictInsert, if_neg (fun he => h.1 he.symm), ih h.2]
    simp

/-! ## The group store (`GroupStore`, `src/server.py` lines 454-485)

`write` sanitizes via the dict comprehension
`{name.strip(): sorted(set(container_ids)) for name, container_ids in
groups.items() if name.strip()}`, persists the sanitized value and
returns it.  `sorted(set(l))` is the unique duplicate-free ascending
listing of `l`'s elements, modelled as `List.insertionSort` of
`List.dedup` (Python compares strings lexicographically by code point,
which is exactly Lean's `String` linear order). -/

/-- Lexicographic comparison of character lists by code point: exactly how
Python compares two `str` values. -/
def strLeb : List Char → List Char → Bool
  | [], _ => true
  | _ :: _, [] => false
  | a :: s, b :: t => if a < b then true else if b < a then false else strLeb s t

/-- Python's `str` total order, as a decidable relation on `String`. -/
def pyStrLe (a b : String) : Prop := strLeb a.data b.data = true

instance pyStrLe.decidable : DecidableRel pyStrLe :=
  fun a b => instDecidableEqBool (strLeb a.data b.data) true

theorem strLeb_total : ∀ a b : List Char, strLeb a b = true ∨ strLeb b a = true
  | [], _ => Or.inl rfl
  | _ :: _, [] => Or.inr rfl
  | a :: s, b :: t => by
    by_cases hab : a < b
    · left
      simp [strLeb, hab]
    · by_cases hba : b < a
      · right
        simp [strLeb, hba]
      · rcases strLeb_total s t with h | h
        · left
          simp [strLeb, hab, hba, h]
        · right
          simp [strLeb, hab, hba, h]

theorem strLeb_trans : ∀ a b c : List Char,
    strLeb a b = true → strLeb b c = true → strLeb a c = true
  | [], _, _, _, _ => rfl
  | _ :: _, [], _, h, _ => by simp [strLeb] at h
  | _ :: _, _ :: _, [], _, h => by simp [strLeb] at h
  | x :: s, y :: t, z :: u, h1, h2 => by
    by_cases hxy : x < y
    · by_cases hyz : y < z
      · simp [strLeb, lt_trans hxy hyz]
      · by_cases hzy : z < y
        · simp [strLeb, hyz, hzy] at h2
        · have : y = z := le_antisymm (not_lt.mp hzy) (not_lt.mp hyz)
          simp [strLeb, this ▸ hxy]
    · by_cases hyx : y < x
      · simp [strLeb, hxy, hyx] at h1
      · have hxyeq : x = y := le_antisymm (not_lt.mp hyx) (not_lt.mp hxy)
        subst hxyeq
        simp only [strLeb, if_neg hxy, if_neg hyx] at h1
        by_cases hyz : x < z
        · simp [strLeb, hyz]
        · by_cases hzy : z < x
          · simp [strLeb, hyz, hzy] at h2
          · simp only [strLeb, if_neg hyz, if_neg hzy] at h2 ⊢
            exact strLeb_trans s t u h1 h2

instance pyStrLe.isTotal : IsTotal String pyStrLe :=
  ⟨fun a b => strLeb_total a.data b.data⟩

instance pyStrLe.isTrans : IsTrans String pyStrLe :=
  ⟨fun a b c => strLeb_trans a.data b.data c.data⟩

def sorted_set (l : List String) : List String :=
  List.insertionSort pyStrLe l.dedup

theorem sorted_set_sorted (l : List String) : List.Sorted pyStrLe (sorted_set l) :=
  List.sorted_insertionSort _ _

theorem sorted_set_nodup (l : List String) : (sorted_set l).Nodup :=
  (List.perm_insertionSort pyStrLe l.dedup).symm.nodup (List.nodup_dedup l)

theorem sorted_set_fixed {l : List String} (hnd : l.Nodup) (hs : List.Sorted pyStrLe l) :
    sorted_set l = l := by
  unfold sorted_set
  rw [List.dedup_eq_self.mpr hnd]
  exact hs.insertionSort_eq

namespace GroupStore

/-- The sanitizing dict comprehension in `GroupStore.write`
(`src/server.py` lines 479-483). -/
def sanitize (groups : List (String × List String)) : List (String × List String) :=
  groups.foldl
    (fun acc p =>
      if pyStrip p.1 = "" then acc else dictInsert (pyStrip p.1) (sorted_set p.2) acc) []

/-- `GroupStore.write` (`src/server.py` lines 478-485): the first
component is the value persisted to the backing file by `self._write`,
the second is the value returned to the caller. -/
def write (groups : List (String × List String)) :
    List (String × List String) × List (String × List String) :=
  (sanitize groups, sanitize groups)

/-- The shape invariant of sanitized entries. -/
def Sanitized (p : String × List String) : Prop :=
  pyStrip p.1 = p.1 ∧ p.1 ≠ "" ∧ p.2.Nodup ∧ List.Sorted pyStrLe p.2

theorem sanitize_invariant (groups : List (String × List String)) :
    (∀ p ∈ sanitize groups, Sanitized p) ∧
      ((sanitize groups).map Prod.fst).Nodup := by
  unfold sanitize
  suffices h : ∀ (l : List (String × List String)) (acc : List (String × List String)),
      (∀ p ∈ acc, Sanitized p) → ((acc.map Prod.fst)).Nodup →
      (∀ p ∈ l.foldl (fun acc p =>
          if pyStrip p.1 = "" then acc
          else dictInsert (pyStrip p.1) (sorted_set p.2) acc) acc, Sanitized p) ∧
        (((l.foldl (fun acc p =>
          if pyStrip p.1 = "" then acc
          else dictInsert (pyStrip p.1) (sorted_set p.2) acc) acc).map Prod.fst)).Nodup by
    exact h groups [] (by simp) (by simp)
  intro l
  induction l with
  | nil => intro acc h1 h2; exact ⟨h1, h2⟩
  | cons p t ih =>
    intro acc h1 h2
    simp only [List.foldl_cons]
    by_cases hp : pyStrip p.1 = ""
    · rw [if_pos hp]
      exact ih acc h1 h2
    · rw [if_neg hp]
      refine ih _ ?_ ?_
      · refine dictInsert_all Sanitized _ _ ?_ acc h1
        exact ⟨pyStrip_idem p.1, hp, sorted_set_nodup p.2, sorted_set_sorted p.2⟩
      · exact dictInsert_keys_nodup _ _ acc h2

theorem sanitize_fixed_aux :
    ∀ (l acc : List (String × List String)),
      (∀ p ∈ l, Sanitized p) →
      ((l.map Prod.fst)).Nodup →
      (∀ k, k ∈ l.map Prod.fst → k ∉ acc.map Prod.fst) →
      l.foldl (fun acc p =>
          if pyStrip p.1 = "" then acc
          else dictInsert (pyStrip p.1) (sorted_set p.2) acc) acc = acc ++ l
  | [], acc, _, _, _ => by simp
  | p :: t, acc, hP, hnd, hdisj => by
    simp only [List.foldl_cons]
    obtain ⟨hstrip, hne, hv_nd, hv_sorted⟩ := hP p (List.mem_cons_self p t)
    rw [if_neg (by rw [hstrip]; exact hne), hstrip, sorted_set_fixed hv_nd hv_sorted]
    rw [dictInsert_not_mem p.1 p.2 acc (hdisj p.1 (by simp))]
    have hstep := sanitize_fixed_aux t (acc ++ [(p.1, p.2)])
      (fun q hq => hP q (List.mem_cons_of_mem p hq))
      (by simpa using (List.nodup_cons.mp (by simpa using hnd)).2)
      (by
        intro k hk
        simp only [List.map_append, List.mem_append, List.map_cons, List.map_nil,
          List.mem_singleton]
        push_neg
        refine ⟨hdisj k (List.mem_cons_of_mem _ hk), ?_⟩
        intro he
        exact (List.nodup_cons.mp (by simpa using hnd)).1 (he ▸ hk))
    rw [hstep]
    simp

/-- Sanitizing an already-sanitized value is a no-op. -/
theorem sanitize_idem (groups : List (String × List String)) :
    sanitize (sanitize groups) = sanitize groups := by
  obtain ⟨hP, hnd⟩ := sanitize_invariant groups
  simpa using sanitize_fixed_aux (sanitize groups) [] hP hnd (by simp)

end GroupStore

/-- C6: the group store's write is idempotent on its own output: writing
the sanitized value returned by `write(g)` stores and returns that same
value unchanged, and the value returned by `write` is exactly the value
persisted (`src/server.py` lines 478-485). -/
theorem group_store_write_idempotent (groups : List (String × List String)) :
    GroupStore.write ((GroupStore.write groups).2) = GroupStore.write groups ∧
      (GroupStore.write groups).1 = (GroupStore.write groups).2 := by
  unfold GroupStore.write
  simp [GroupStore.sanitize_idem]

/-- C7: every entry of the value returned by `GroupStore.write` has a
trimmed, non-empty name and a duplicate-free, sorted member list
(`src/server.py` lines 478-485). -/
theorem group_store_write_sanitized (groups : List (String × List String))
    (p : String × List String) (hp : p ∈ (GroupStore.write groups).2) :
    pyStrip p.1 = p.1 ∧ p.1 ≠ "" ∧ p.2.Nodup ∧ List.Sorted pyStrLe p.2 :=
  (GroupStore.sanitize_invariant groups).1 p hp

/-- Witness for C7 at a concrete input: writing
`{" web ": ["b", "a", "b"]}` yields the entry `("web", ["a", "b"])`,
which is trimmed, non-empty, duplicate-free and sorted. -/
theorem group_store_write_sanitized_witness :
    ("web", ["a", "b"]) ∈ (GroupStore.write [(" web ", ["b", "a", "b"])]).2 ∧
      (pyStrip "web" = "web" ∧ "web" ≠ "" ∧ (["a", "b"] : List String).Nodup ∧
        List.Sorted pyStrLe ["a", "b"]) := by
  have hval : (GroupStore.write [(" web ", ["b", "a", "b"])]).2 = [("web", ["a", "b"])] :=
    rfl
  have hmem : (("web", ["a", "b"]) : String × List String) ∈
      (GroupStore.write [(" web ", ["b", "a", "b"])]).2 := by
    rw [hval]
    exact List.mem_singleton.mpr rfl
  exact ⟨hmem, group_store_write_sanitized _ _ hmem⟩

/-! ## The group store's read path (`src/server.py` lines 464-472)

`read` calls `Path.read_text` (raises `FileNotFoundError` when the file
is missing) and `json.loads` (raises `json.JSONDecodeError` when the
contents fail to parse), and catches exactly those two exceptions,
returning the empty mapping.  The JSON parser itself is external
(`json.loads`), abstracted as a function returning `none` on a decode
error. -/

inductive PyFile where
  | missing
  | contents (text : String)
deriving DecidableEq

inductive StoreExc where
  | fileNotFound
  | jsonDecode
deriving DecidableEq

/-- `self._path.read_text()`: raises `FileNotFoundError` on a missing file. -/
def read_text : PyFile → Except StoreExc String
  | .missing => .error .fileNotFound
  | .contents s => .ok s

/-- `json.loads`: raises `json.JSONDecodeError` when the text fails to
parse; the parse itself is the abstract parameter. -/
def json_loads (parse : String → Option (List (String × List String))) (s : String) :
    Except StoreExc (List (String × List String)) :=
  match parse s with
  | none => .error .jsonDecode
  | some g => .ok g

namespace GroupStore

/-- `GroupStore.read` (`src/server.py` lines 464-472): try
`json.loads(read_text())`; `except FileNotFoundError: return {}`;
`except json.JSONDecodeError: return {}`.  Any exception the handlers do
not name would propagate as `.error`. -/
def read (parse : String → Option (List (String × List String))) (file : PyFile) :
    Except StoreExc (List (String × List String)) :=
  match read_text file with
  | .error .fileNotFound => .ok []
  | .error e => .error e
  | .ok s =>
    match json_loads parse s with
    | .error .jsonDecode => .ok []
    | .error e => .error e
    | .ok g => .ok g

end GroupStore

/-- C9: for every state of the backing file — missing, or contents that
fail to parse — `GroupStore.read` returns the empty mapping, and for
every file state it returns a value rather than propagating an exception
(`src/server.py` lines 464-472). -/
theorem group_store_read_defaults
    (parse : String → Option (List (String × List String))) (file : PyFile) :
    (∃ g, GroupStore.read parse file = .ok g) ∧
      (file = .missing → GroupStore.read parse file = .ok []) ∧
      (∀ s, file = .contents s → parse s = none → GroupStore.read parse file = .ok []) := by
  refine ⟨?_, ?_, ?_⟩
  · cases file with
    | missing => exact ⟨[], rfl⟩
    | contents s =>
      unfold GroupStore.read read_text json_loads
      cases hp : parse s with
      | none => exact ⟨[], by simp [hp]⟩
      | some g => exact ⟨g, by simp [hp]⟩
  · rintro rfl
    rfl
  · rintro s rfl hp
    unfold GroupStore.read read_text json_loads
    simp [hp]

/-- Witness for C9: a missing file and a corrupt (unparseable) file both
read back as the empty mapping. -/
theorem group_store_read_defaults_witness :
    GroupStore.read (fun _ => none) PyFile.missing = .ok [] ∧
      GroupStore.read (fun _ => none) (PyFile.contents "corrupt ]") = .ok [] :=
  ⟨(group_store_read_defaults (fun _ => none) PyFile.missing).2.1 rfl,
    (group_store_read_defaults (fun _ => none) (PyFile.contents "corrupt ]")).2.2
      "corrupt ]" rfl rfl⟩

/-! ## The restart-policy reconciler (`src/server.py` lines 861-913)

`sync_restart_policies` first computes the desired-policy dict: for every
`(group, members)` pair, `"unless-stopped"` (the persistent policy) if the
group is in `autostart.groups`, else `"no"` (the none policy), assigned to
every member; then every id in `autostart.containers` is forced to
`"unless-stopped"`.  The dict is built by repeated assignment, so the
last-processed group wins for a container in several groups. -/

structure AutostartCfg where
  groups : List String
  containers : List String
deriving DecidableEq

/-- The desired-policy dict computed by `sync_restart_policies`
(`src/server.py` lines 867-879). -/
def sync_desired_policies (cfg : AutostartCfg) (groups : List (String × List String)) :
    List (String × String) :=
  let afterGroups := groups.foldl
    (fun m p =>
      let policy := if p.1 ∈ cfg.groups then "unless-stopped" else "no"
      p.2.foldl (fun m cid => dictInsert cid policy m) m) []
  cfg.containers.foldl (fun m cid => dictInsert cid "unless-stopped" m) afterGroups

/-- The last `(group, members)` pair in iteration order whose member list
contains `cid`. -/
def lastMatchingGroup (cid : String) :
    List (String × List String) → Option (String × List String)
  | [] => none
  | p :: t =>
    match lastMatchingGroup cid t with
    | some q => some q
    | none => if cid ∈ p.2 then some p else none

theorem foldl_dictInsert_same (pol : String) (ids : List String) :
    ∀ (m : List (String × String)) (cid : String),
      dictGet cid (ids.foldl (fun m c => dictInsert c pol m) m) =
        if cid ∈ ids then some pol else dictGet cid m := by
  induction ids with
  | nil => intro m cid; simp
  | cons c t ih =>
    intro m cid
    rw [List.foldl_cons, ih (dictInsert c pol m) cid, dictGet_dictInsert]
    by_cases ht : cid ∈ t
    · simp [ht]
    · by_cases hc : cid = c
      · simp [ht, hc]
      · simp [ht, hc]

theorem foldl_groups_policy (cfg : AutostartCfg) (gs : List (String × List String)) :
    ∀ (m : List (String × String)) (cid : String),
      dictGet cid (gs.foldl
        (fun m p =>
          let policy := if p.1 ∈ cfg.groups then "unless-stopped" else "no"
          p.2.foldl (fun m cid => dictInsert cid policy m) m) m) =
      match lastMatchingGroup cid gs with
      | some p => some (if p.1 ∈ cfg.groups then "unless-stopped" else "no")
      | none => dictGet cid m := by
  induction gs with
  | nil => intro m cid; simp [lastMatchingGroup]
  | cons p t ih =>
    intro m cid
    rw [List.foldl_cons, ih]
    cases hlast : lastMatchingGroup cid t with
    | some q => simp [lastMatchingGroup, hlast]
    | none =>
      simp only [lastMatchingGroup, hlast]
      rw [foldl_dictInsert_same]
      by_cases hmem : cid ∈ p.2
      · simp [hmem]
      · simp [hmem]

/-- C3: the desired-policy map of `sync_restart_policies` assigns the
persistent policy (`"unless-stopped"`) to every id in
`autostart.containers`, overriding any group-derived policy; an id not
individually selected receives the policy of the last-processed group
containing it — persistent when that group is enabled, `"no"` otherwise —
and no policy at all when no group contains it.  In particular, for
groups `{"g1": ["a","b"], "g2": ["b"]}` and autostart
`{"groups": ["g2"], "containers": []}`, `b` maps to `"unless-stopped"`
and `a` to `"no"` (`src/server.py` lines 861-888). -/
theorem sync_restart_policies_desired (cfg : AutostartCfg)
    (groups : List (String × List String)) (cid : String) :
    (cid ∈ cfg.containers →
      dictGet cid (sync_desired_policies cfg groups) = some "unless-stopped") ∧
    (cid ∉ cfg.containers →
      dictGet cid (sync_desired_policies cfg groups) =
        (lastMatchingGroup cid groups).map
          (fun p => if p.1 ∈ cfg.groups then "unless-stopped" else "no")) ∧
    (dictGet "b" (sync_desired_policies ⟨["g2"], []⟩ [("g1", ["a", "b"]), ("g2", ["b"])]) =
        some "unless-stopped" ∧
      dictGet "a" (sync_desired_policies ⟨["g2"], []⟩ [("g1", ["a", "b"]), ("g2", ["b"])]) =
        some "no") := by
  refine ⟨?_, ?_, by decide, by decide⟩
  · intro hmem
    unfold sync_desired_policies
    rw [foldl_dictInsert_same, if_pos hmem]
  · intro hmem
    unfold sync_desired_policies
    rw [foldl_dictInsert_same, if_neg hmem, foldl_groups_policy]
    cases lastMatchingGroup cid groups with
    | some q => simp
    | none => simp [dictGet]

/-- Witness for C3: an individually selected container gets the
persistent policy even though its group is disabled, and a container in
no group and not selected gets no desired policy at all. -/
theorem sync_restart_policies_desired_witness :
    dictGet "a" (sync_desired_policies ⟨["g2"], ["a"]⟩ [("g1", ["a", "b"]), ("g2", ["b"])]) =
        some "unless-stopped" ∧
      dictGet "zz" (sync_desired_policies ⟨["g2"], []⟩ [("g1", ["a", "b"]), ("g2", ["b"])]) =
        none := by
  constructor
  · exact (sync_restart_policies_desired ⟨["g2"], ["a"]⟩ [("g1", ["a", "b"]), ("g2", ["b"])]
      "a").1 (by decide)
  · have h := (sync_restart_policies_desired ⟨["g2"], []⟩ [("g1", ["a", "b"]), ("g2", ["b"])]
      "zz").2.1 (by decide)
    rw [h]
    decide

/-! ## `ensure_autostart_running` (`src/server.py` lines 891-913)

For each id of the desired running set, the loop attempts `docker start`;
a `DockerCommandError` whose `stderr` contains `"is already running"`
(after lowercasing) is skipped silently, any other error appends
`f"{cid[:12]}: {error.stderr or error}"` to the warnings, and the loop
always continues with the next id.  The engine is abstracted as
`start : String → Option DockerErr` (`none` = the start succeeded). -/

structure DockerErr where
  stderr : String
  message : String
deriving DecidableEq

/-- `error.stderr or error`: Python falls back to `str(error)` when
`stderr` is empty (empty strings are falsy). -/
def errDetail (e : DockerErr) : String :=
  if e.stderr = "" then e.message else e.stderr

/-- ASCII `str.lower()`. -/
def asciiLower (s : String) : String := ⟨s.data.map Char.toLower⟩

/-- `pat in s` for Python strings: `startsWithSeq` checks a prefix match,
`containsSeq` scans every suffix. -/
def startsWithSeq : List Char → List Char → Bool
  | [], _ => true
  | _ :: _, [] => false
  | a :: ps, b :: ss => a == b && startsWithSeq ps ss

def containsSeq (pat : List Char) : List Char → Bool
  | [] => pat.isEmpty
  | b :: ss => startsWithSeq pat (b :: ss) || containsSeq pat ss

/-- Python `pat in s` on strings (substring containment). -/
def pyContains (s pat : String) : Bool := containsSeq pat.data s.data

/-- `"is already running" in (error.stderr or "").lower()`. -/
def already_running_benign (e : DockerErr) : Bool :=
  pyContains (asciiLower e.stderr) "is already running"

/-- `f"{cid[:12]}: {error.stderr or error}"`. -/
def start_warning (cid : String) (e : DockerErr) : String :=
  cid.take 12 ++ ": " ++ errDetail e

def ensure_autostart_running (start : String → Option DockerErr) (ids : List String) :
    List String :=
  ids.foldl
    (fun warnings cid =>
      match start cid with
      | none => warnings
      | some e =>
        if already_running_benign e then warnings
        else warnings ++ [start_warning cid e]) []

/-- The desired running set: members of every enabled group plus the
individually selected containers (a Python `set`; only membership is
specified, iteration order is not). -/
def desired_autostart_ids (cfg : AutostartCfg) (groups : List (String × List String)) :
    List String :=
  ((cfg.groups.flatMap fun g => (dictGet g groups).getD []) ++ cfg.containers).dedup

theorem ensure_autostart_aux (start : String → Option DockerErr) (ids : List String) :
    ∀ acc : List String,
      ids.foldl
        (fun warnings cid =>
          match start cid with
          | none => warnings
          | some e =>
            if already_running_benign e then warnings
            else warnings ++ [start_warning cid e]) acc =
      acc ++ ids.filterMap
        (fun cid =>
          match start cid with
          | none => none
          | some e =>
            if already_running_benign e then none
            else some (start_warning cid e)) := by
  induction ids with
  | nil => intro acc; simp
  | cons cid t ih =>
    intro acc
    rw [List.foldl_cons, List.filterMap_cons]
    cases hs : start cid with
    | none => simp only [hs]; exact ih acc
    | some e =>
      by_cases hb : already_running_benign e
      · simp only [hs, if_pos hb]
        exact ih acc
      · simp only [hs, if_neg hb]
        rw [ih (acc ++ [start_warning cid e])]
        simp

/-- C4: over the desired running set, `ensure_autostart_running` produces
exactly one warning per failed start whose `stderr` does not contain
`"is already running"` case-insensitively, keyed by the id truncated to
12 characters; a failure whose detail does contain that substring
contributes nothing, and every id is processed (no failure aborts the
iteration) (`src/server.py` lines 891-913). -/
theorem ensure_autostart_running_spec (start : String → Option DockerErr)
    (cfg : AutostartCfg) (groups : List (String × List String)) :
    (∀ cid, cid ∈ desired_autostart_ids cfg groups ↔
        ((∃ g ∈ cfg.groups, cid ∈ (dictGet g groups).getD []) ∨ cid ∈ cfg.containers)) ∧
    ensure_autostart_running start (desired_autostart_ids cfg groups) =
      (desired_autostart_ids cfg groups).filterMap
        (fun cid =>
          match start cid with
          | none => none
          | some e =>
            if already_running_benign e then none
            else some (start_warning cid e)) ∧
    (∀ cid ∈ desired_autostart_ids cfg groups, ∀ e, start cid = some e →
        already_running_benign e = false →
        start_warning cid e ∈
          ensure_autostart_running start (desired_autostart_ids cfg groups)) := by
  have heq := ensure_autostart_aux start (desired_autostart_ids cfg groups) []
  refine ⟨?_, by simpa using heq, ?_⟩
  · intro cid
    simp [desired_autostart_ids]
  · intro cid hcid e hse hbenign
    have : ensure_autostart_running start (desired_autostart_ids cfg groups) =
        (desired_autostart_ids cfg groups).filterMap
          (fun cid =>
            match start cid with
            | none => none
            | some e =>
              if already_running_benign e then none
              else some (start_warning cid e)) := by
      simpa using heq
    rw [this, List.mem_filterMap]
    exact ⟨cid, hcid, by rw [hse]; simp [hbenign]⟩

/-- Witness for C4 at a concrete engine: a start failure whose stderr
says (in mixed case) that the container is already running is absent
from the warnings, while an ordinary failure appears truncated to 12
characters. -/
theorem ensure_autostart_running_spec_witness :
    start_warning "c2-very-long-identifier" ⟨"boom", "msg"⟩ ∈
      ensure_autostart_running
        (fun cid =>
          if cid = "c1" then some ⟨"container c1 IS Already Running", "m1"⟩
          else if cid = "c2-very-long-identifier" then some ⟨"boom", "msg"⟩
          else none)
        (desired_autostart_ids ⟨["g1"], []⟩
          [("g1", ["c1", "c2-very-long-identifier", "c3"])]) :=
  (ensure_autostart_running_spec
      (fun cid =>
        if cid = "c1" then some ⟨"container c1 IS Already Running", "m1"⟩
        else if cid = "c2-very-long-identifier" then some ⟨"boom", "msg"⟩
        else none)
      ⟨["g1"], []⟩ [("g1", ["c1", "c2-very-long-identifier", "c3"])]).2.2
    "c2-very-long-identifier" (by decide) ⟨"boom", "msg"⟩ (by decide) (by decide)

/-! ## The command gateway (`run_docker_command`, `src/server.py` lines 691-715)

The gateway escapes every argument with `shlex.quote`, joins them into
`"docker " + " ".join(escaped_args)` and hands that single string to
`/bin/bash`.  To settle the no-injection claim we model `shlex.quote`
exactly (CPython: empty string becomes `''`; a string of characters
matching `[-a-zA-Z0-9_@%+=:,./]` is returned unchanged; anything else is
wrapped in single quotes with every `'` replaced by `'"'"'`), model
bash's word splitting of such a command line, and prove the round trip:
the words bash produces are exactly `"docker"` followed by the original
argument list, whatever bytes the arguments contain. -/

/-- The characters `shlex.quote` leaves unquoted
(CPython `_find_unsafe`: anything outside `[-a-zA-Z0-9_@%+=:,./]`, ASCII-only). -/
def shlexSafeChars : List Char :=
  "abcdefghijklmnopqrstuvwxyzABCDEFGHIJKLMNOPQRSTUVWXYZ0123456789_@%+=:,./-".toList

def shlexSafeChar (c : Char) : Bool := decide (c ∈ shlexSafeChars)

/-- `s.replace("'", "'\"'\"'")`, character by character. -/
def squoteRepl (c : Char) : List Char :=
  if c = '\'' then ['\'', '"', '\'', '"', '\''] else [c]

/-- CPython `shlex.quote`. -/
def shlex_quote (s : List Char) : List Char :=
  if s = [] then ['\'', '\'']
  else if s.all shlexSafeChar then s
  else '\'' :: (s.flatMap squoteRepl ++ ['\''])

/-- A character bash treats as an ordinary word constituent when it is
unquoted.  Whitespace, quoting characters, expansion triggers
(`$`, backquote, backslash), operators and glob/comment/history
characters are excluded; the word splitter refuses (returns `none`) any
unquoted character whose bash semantics is not plain self-insertion, so
it never mistakes an expansion for literal text. -/
def plainChar (c : Char) : Bool :=
  !(c == ' ' || c == '\t' || c == '\n' || c == '\'' || c == '"' || c == '$' || c == '\x60' ||
    c == '\\' || c == ';' || c == '&' || c == '|' || c == '<' || c == '>' || c == '(' ||
    c == ')' || c == '*' || c == '?' || c == '[' || c == '~' || c == '#' || c == '!')

mutual

/-- Bash word splitting, outside quotes.  `cur = some w` means a word
with content `w` is in progress (so `''` yields an empty word). -/
def splitWords : List Char → Option (List Char) → Option (List (List Char))
  | [], none => some []
  | [], some w => some [w]
  | c :: cs, cur =>
    if c == ' ' || c == '\t' || c == '\n' then
      match cur with
      | none => splitWords cs none
      | some w => (splitWords cs none).map (fun ws => w :: ws)
    else if c == '\'' then splitSingle cs (cur.getD [])
    else if c == '"' then splitDouble cs (cur.getD [])
    else if plainChar c then splitWords cs (some (cur.getD [] ++ [c]))
    else none

/-- Inside single quotes: every character is literal until the closing
quote; an unterminated quote is an error. -/
def splitSingle : List Char → List Char → Option (List (List Char))
  | [], _ => none
  | c :: cs, w => if c == '\'' then splitWords cs (some w) else splitSingle cs (w ++ [c])

/-- Inside double quotes: literal except for the closing quote and the
expansion triggers `$`, backquote and backslash, which the splitter
refuses. -/
def splitDouble : List Char → List Char → Option (List (List Char))
  | [], _ => none
  | c :: cs, w =>
    if c == '"' then splitWords cs (some w)
    else if c == '$' || c == '\x60' || c == '\\' then none
    else splitDouble cs (w ++ [c])

end

theorem splitWords_nil_none : splitWords [] none = some [] := rfl

theorem splitWords_nil_some (w : List Char) : splitWords [] (some w) = some [w] := rfl

theorem splitWords_sq_none (cs : List Char) : splitWords ('\'' :: cs) none = splitSingle cs [] :=
  rfl

theorem splitWords_sq_some (cs w : List Char) :
    splitWords ('\'' :: cs) (some w) = splitSingle cs w := rfl

theorem splitWords_dq_some (cs w : List Char) :
    splitWords ('"' :: cs) (some w) = splitDouble cs w := rfl

theorem splitWords_space_some (cs w : List Char) :
    splitWords (' ' :: cs) (some w) = (splitWords cs none).map (fun ws => w :: ws) := rfl

theorem splitSingle_sq (cs w : List Char) : splitSingle ('\'' :: cs) w = splitWords cs (some w) :=
  rfl

theorem splitSingle_other (c : Char) (cs w : List Char) (h : (c == '\'') = false) :
    splitSingle (c :: cs) w = splitSingle cs (w ++ [c]) := by
  rw [splitSingle, if_neg (by simp [h])]

theorem splitDouble_dq (cs w : List Char) : splitDouble ('"' :: cs) w = splitWords cs (some w) :=
  rfl

theorem splitDouble_sq (cs w : List Char) :
    splitDouble ('\'' :: cs) w = splitDouble cs (w ++ ['\'']) := rfl

theorem safeChar_props (c : Char) (h : shlexSafeChar c = true) :
    plainChar c = true ∧ (c == ' ') = false ∧ (c == '\t') = false ∧ (c == '\n') = false ∧
      (c == '\'') = false ∧ (c == '"') = false := by
  have hc : c ∈ shlexSafeChars := of_decide_eq_true h
  fin_cases hc <;> decide

theorem splitWords_safe_run (s : List Char) (hs : s.all shlexSafeChar = true) :
    ∀ (rest w : List Char),
      splitWords (s ++ rest) (some w) = splitWords rest (some (w ++ s)) := by
  induction s with
  | nil => simp
  | cons c t ih =>
    intro rest w
    have hct : shlexSafeChar c = true ∧ t.all shlexSafeChar = true := by
      simpa [List.all_cons] using hs
    obtain ⟨hplain, hsp, htab, hnl, hsq, hdq⟩ := safeChar_props c hct.1
    rw [List.cons_append]
    simp only [splitWords, hplain, hsp, htab, hnl, hsq, hdq, Bool.or_self, Bool.or_false,
      Bool.false_or, if_false, if_true, Option.getD_some]
    rw [ih hct.2 rest (w ++ [c])]
    simp [List.append_assoc]

theorem splitWords_safe_start (s : List Char) (hs : s.all shlexSafeChar = true)
    (hne : s ≠ []) :
    ∀ rest, splitWords (s ++ rest) none = splitWords rest (some s) := by
  cases s with
  | nil => exact absurd rfl hne
  | cons c t =>
    intro rest
    have hct : shlexSafeChar c = true ∧ t.all shlexSafeChar = true := by
      simpa [List.all_cons] using hs
    obtain ⟨hplain, hsp, htab, hnl, hsq, hdq⟩ := safeChar_props c hct.1
    rw [List.cons_append]
    simp only [splitWords, hplain, hsp, htab, hnl, hsq, hdq, Bool.or_self, Bool.or_false,
      Bool.false_or, if_false, if_true, Option.getD_none]
    rw [splitWords_safe_run t hct.2 rest ([] ++ [c])]
    simp

theorem splitSingle_repl (s : List Char) :
    ∀ (rest w : List Char),
      splitSingle (s.flatMap squoteRepl ++ rest) w = splitSingle rest (w ++ s) := by
  induction s with
  | nil => simp
  | cons c t ih =>
    intro rest w
    by_cases hq : c = '\''
    · subst hq
      have hrepl : squoteRepl '\'' = ['\'', '"', '\'', '"', '\''] := by decide
      rw [List.flatMap_cons, hrepl]
      simp only [List.cons_append, List.nil_append, List.append_assoc]
      rw [splitSingle_sq, splitWords_dq_some, splitDouble_sq, splitDouble_dq,
        splitWords_sq_some, ih rest (w ++ ['\''])]
      simp [List.append_assoc]
    · have hrepl : squoteRepl c = [c] := by simp [squoteRepl, hq]
      rw [List.flatMap_cons, hrepl]
      simp only [List.cons_append, List.nil_append, List.singleton_append]
      rw [splitSingle_other c _ _ (by simp [hq]), ih rest (w ++ [c])]
      simp [List.append_assoc]

theorem splitWords_quote (s : List Char) :
    ∀ rest, splitWords (shlex_quote s ++ rest) none = splitWords rest (some s) := by
  intro rest
  by_cases hnil : s = []
  · subst hnil
    rw [shlex_quote, if_pos rfl]
    simp only [List.cons_append, List.nil_append]
    rw [splitWords_sq_none, splitSingle_sq]
  · by_cases hsafe : s.all shlexSafeChar = true
    · rw [shlex_quote, if_neg hnil, if_pos hsafe]
      exact splitWords_safe_start s hsafe hnil rest
    · rw [shlex_quote, if_neg hnil, if_neg hsafe]
      simp only [List.cons_append, List.append_assoc, List.singleton_append, List.nil_append]
      rw [splitWords_sq_none, splitSingle_repl s ('\'' :: rest) [], List.nil_append,
        splitSingle_sq]

/-- `" ".join(shlex.quote(arg) for arg in args)`. -/
def join_quoted : List (List Char) → List Char
  | [] => []
  | [a] => shlex_quote a
  | a :: b :: t => shlex_quote a ++ ' ' :: join_quoted (b :: t)

/-- The shell text built by `run_docker_command`
(`src/server.py` lines 694-695): `"docker " + " ".join(escaped_args)`,
which is then executed by `/bin/bash`. -/
def docker_command_text (args : List (List Char)) : List Char :=
  "docker ".toList ++ join_quoted args

theorem splitWords_join (args : List (List Char)) :
    splitWords (join_quoted args) none = some args := by
  induction args with
  | nil => simp [join_quoted, splitWords]
  | cons a t ih =>
    cases t with
    | nil =>
      have h := splitWords_quote a []
      rw [List.append_nil] at h
      rw [join_quoted, h, splitWords_nil_some]
    | cons b t2 =>
      rw [join_quoted, splitWords_quote a (' ' :: join_quoted (b :: t2)),
        splitWords_space_some, ih]
      rfl

/-- C2: no shell injection through the command gateway.  For every
argument list, bash word splitting of the command text built by
`run_docker_command` yields exactly the word `docker` followed by the
original arguments, one word per argument — no argument value (quotes,
spaces or separators included) can change the argument boundaries or be
interpreted as an expansion (`src/server.py` lines 691-715). -/
theorem run_docker_command_no_injection (args : List (List Char)) :
    splitWords (docker_command_text args) none = some ("docker".toList :: args) := by
  unfold docker_command_text
  have hd : ("docker ".toList : List Char) = "docker".toList ++ [' '] := by decide
  rw [hd, List.append_assoc,
    splitWords_safe_start "docker".toList (by decide) (by decide)]
  simp only [List.singleton_append]
  rw [splitWords_space_some, splitWords_join args]
  rfl

/-! ## Inspected container snapshots (`docker inspect` output)

Fields follow the keys read by `src/server.py`; Python's
`d.get(key) or default` turns an absent or empty value into the default,
so absent fields are modelled as `""` / `[]`. -/

structure PortBinding where
  hostIp : String
  hostPort : String
deriving DecidableEq

structure InspectConfig where
  image : String
  env : List String
  workingDir : String
  user : String
  exposedPorts : List String
  entrypoint : List String
  cmd : List String
deriving DecidableEq

structure InspectHostConfig where
  restartPolicyName : String
  networkMode : String
  binds : List String
  portBindings : List (String × List PortBinding)
deriving DecidableEq

structure InspectMount where
  destination : String
deriving DecidableEq

structure InspectData where
  name : String
  image : String
  config : InspectConfig
  hostConfig : InspectHostConfig
  mounts : List InspectMount
deriving DecidableEq

/-- Python `s.lstrip("/")`. -/
def lstripSlashes (s : String) : String := ⟨s.data.dropWhile (· == '/')⟩

/-- The `-p` flags emitted for one port binding
(`src/server.py` lines 759-769): skipped when the host port is empty;
the host IP is included only when set and not the wildcard `0.0.0.0`. -/
def port_publish_args (container_port : String) (b : PortBinding) : List String :=
  if b.hostPort = "" then []
  else if b.hostIp ≠ "" ∧ b.hostIp ≠ "0.0.0.0" then
    ["-p", b.hostIp ++ ":" ++ b.hostPort ++ ":" ++ container_port]
  else ["-p", b.hostPort ++ ":" ++ container_port]

/-- `build_run_args_from_inspect` (`src/server.py` lines 742-787). -/
def build_run_args_from_inspect (d : InspectData) : List String :=
  ["run", "-d", "--name", lstripSlashes d.name]
  ++ (if d.hostConfig.restartPolicyName ≠ "" ∧ d.hostConfig.restartPolicyName ≠ "no"
      then ["--restart", d.hostConfig.restartPolicyName] else [])
  ++ (if d.hostConfig.networkMode ≠ "" ∧ d.hostConfig.networkMode ≠ "default" ∧
        d.hostConfig.networkMode ≠ "bridge"
      then ["--network", d.hostConfig.networkMode] else [])
  ++ d.hostConfig.binds.flatMap (fun b => ["-v", b])
  ++ d.hostConfig.portBindings.flatMap (fun pb => pb.2.flatMap (port_publish_args pb.1))
  ++ d.config.env.flatMap (fun e => ["-e", e])
  ++ (if d.config.workingDir ≠ "" then ["-w", d.config.workingDir] else [])
  ++ (if d.config.user ≠ "" then ["-u", d.config.user] else [])
  ++ [if d.config.image ≠ "" then d.config.image else d.image]
  ++ d.config.entrypoint ++ d.config.cmd

/-- `json.dumps` escaping for the characters that require it in this
context (backslash and double quote; control characters, which cannot
appear in entrypoint vectors read back from `docker inspect` text lines,
are not further modelled). -/
def jsonDumpStr (s : String) : String :=
  "\"" ++ ⟨s.data.flatMap (fun c =>
    if c = '\\' then ['\\', '\\'] else if c = '"' then ['\\', '"'] else [c])⟩ ++ "\""

/-- `json.dumps` of a list of strings, with CPython's default `", "`
separator. -/
def jsonDumpStrList (l : List String) : String :=
  "[" ++ String.intercalate ", " (l.map jsonDumpStr) ++ "]"

/-- `build_dockerfile_from_inspect` (`src/server.py` lines 790-820). -/
def build_dockerfile_from_inspect (d : InspectData) : String :=
  let base := if d.config.image ≠ "" then d.config.image else "scratch"
  let lines := ["FROM " ++ base]
    ++ d.config.env.map (fun e => "ENV " ++ e)
    ++ (if d.config.workingDir ≠ "" then ["WORKDIR " ++ d.config.workingDir] else [])
    ++ d.config.exposedPorts.map (fun p => "EXPOSE " ++ p)
    ++ d.mounts.filterMap (fun m =>
        if m.destination ≠ "" then some ("VOLUME " ++ m.destination) else none)
    ++ (if d.config.entrypoint ≠ [] then
        ["ENTRYPOINT " ++ jsonDumpStrList d.config.entrypoint] else [])
    ++ (if d.config.cmd ≠ [] then ["CMD " ++ jsonDumpStrList d.config.cmd] else [])
  String.intercalate "\n" lines ++ "\n"

/-- `shlex.quote` on a `String`. -/
def strQuote (s : String) : String := ⟨shlex_quote s.data⟩

/-- `build_run_script` (`src/server.py` lines 823-825). -/
def build_run_script (run_args : List String) : String :=
  "#!/usr/bin/env bash\nset -euo pipefail\n\n" ++ "docker " ++
    String.intercalate " " (run_args.map strQuote) ++ "\n"

/-! ## The export archive (`create_export_zip_from_inspect`,
`src/server.py` lines 828-850)

The function's parameters are `data` and `include_data`; inside the
`include_data` branch it evaluates `container_id`, a name that is bound
nowhere in its scope chain — not a parameter, not a local, and
`src/server.py` has no module-level `container_id`.  CPython therefore
raises `NameError` there, and the surrounding `except DockerCommandError`
clause does not catch it. -/

/-- What the name `container_id` resolves to inside
`create_export_zip_from_inspect`: nothing (`src/server.py` line 842;
the function's scope chain has no such binding). -/
def container_id_in_scope : Option String := none

inductive PyExportErr where
  | nameError (missing : String)
deriving DecidableEq

/-- `create_export_zip_from_inspect` (`src/server.py` lines 828-850); the
archive is the list of (entry name, entry contents); `dumpInspect`
abstracts `json.dumps(data, indent=2)` and `dockerExport` abstracts the
`docker export` gateway call plus reading back the temporary tar file. -/
def create_export_zip_from_inspect
    (dumpInspect : InspectData → String)
    (dockerExport : String → Except DockerErr String)
    (data : InspectData) (include_data : Bool) :
    Except PyExportErr (List (String × String)) :=
  let base := [("Dockerfile", build_dockerfile_from_inspect data),
               ("run.sh", build_run_script (build_run_args_from_inspect data)),
               ("inspect.json", dumpInspect data)]
  if include_data then
    match container_id_in_scope with
    | none => .error (.nameError "container_id")
    | some cid =>
      match dockerExport cid with
      | .ok tar => .ok (base ++ [("rootfs.tar", tar)])
      | .error e =>
        .ok (base ++ [("data-export.log", "Falha ao exportar dados: " ++ e.stderr)])
  else .ok base

/-- C1 (code bug): requesting the filesystem export
(`include_data=True`) always raises `NameError` — `container_id` is not
defined in `create_export_zip_from_inspect`'s scope — so no archive is
produced at all, for every snapshot and whatever the engine's export
would have returned; the claimed always-producible archive only exists
for `include_data=False`, where it contains exactly the build-file,
run-script and raw-metadata entries (`src/server.py` lines 828-850). -/
theorem create_export_zip_include_data_crashes
    (dumpInspect : InspectData → String) (dockerExport : String → Except DockerErr String)
    (data : InspectData) :
    create_export_zip_from_inspect dumpInspect dockerExport data true =
        .error (.nameError "container_id") ∧
      create_export_zip_from_inspect dumpInspect dockerExport data false =
        .ok [("Dockerfile", build_dockerfile_from_inspect data),
             ("run.sh", build_run_script (build_run_args_from_inspect data)),
             ("inspect.json", dumpInspect data)] :=
  ⟨rfl, rfl⟩

/-! ## The edit-and-rebuild flow (`_handle_save_dockerfile`,
`src/server.py` lines 1213-1265)

The handler inspects the container once, writes the edited build file,
rebuilds the image tagged with the original image reference, stops and
removes the old container (failures tolerated), and re-creates it from
`build_run_args_from_inspect(data)` where `data` is the snapshot taken
before the rebuild.  The engine is abstracted as a state machine:
`exec` returns the next state, or `none` for a `DockerCommandError`. -/

structure Engine (σ : Type) where
  inspect : σ → Option InspectData
  exec : σ → List String → Option σ

/-- `str(DOCKERFILES_DIR / container_name)`; the absolute base directory
prefix is abstracted to the repository-relative layout. -/
def dockerfilesFolder (container_name : String) : String :=
  "dockerfiles/" ++ container_name

/-- Python `list.index` (first occurrence, `none` for `ValueError`). -/
def pyIndex (a : String) : List String → Option Nat
  | [] => none
  | b :: l => if b = a then some 0 else (pyIndex a l).map (· + 1)

/-- `try: idx = run_args.index(image_tag); run_args[idx] = image_tag;
except ValueError: pass` (`src/server.py` lines 1249-1253). -/
def apply_index_assignment (tag : String) (l : List String) : List String :=
  match pyIndex tag l with
  | some i => l.set i tag
  | none => l

/-- `_handle_save_dockerfile`, from the inspect call to the final
re-create (`src/server.py` lines 1213-1265).  Returns the argument
vector submitted to the final `run_docker_command(run_args)` re-create
call, or `none` when the flow aborts before reaching it (blank content,
failed inspect, failed build — the fatal steps); stop/rm failures are
swallowed (`except DockerCommandError: pass`), keeping the prior state. -/
def handle_save_dockerfile {σ : Type} (eng : Engine σ) (s0 : σ)
    (container_id content : String) : Option (List String) :=
  if pyStrip content = "" then none
  else
    match eng.inspect s0 with
    | none => none
    | some data =>
      let container_name := lstripSlashes (if data.name ≠ "" then data.name else container_id)
      let image_tag := if data.config.image ≠ "" then data.config.image else container_name
      match eng.exec s0 ["build", "-t", image_tag, dockerfilesFolder container_name] with
      | none => none
      | some s1 =>
        let s2 := (eng.exec s1 ["stop", container_id]).getD s1
        let run_args := apply_index_assignment image_tag (build_run_args_from_inspect data)
        let s3 := (eng.exec s2 ["rm", container_id]).getD s2
        let _ := eng.exec s3 run_args
        some run_args

theorem pyIndex_set_self (a : String) (l : List String) :
    ∀ i, pyIndex a l = some i → l.set i a = l := by
  induction l with
  | nil => intro i h; simp [pyIndex] at h
  | cons b t ih =>
    intro i h
    by_cases hb : b = a
    · rw [pyIndex, if_pos hb] at h
      cases h
      simp [hb]
    · rw [pyIndex, if_neg hb] at h
      cases hp : pyIndex a t with
      | none => rw [hp] at h; simp at h
      | some j =>
        rw [hp] at h
        simp only [Option.map] at h
        cases h
        rw [List.set_cons_succ, ih j hp]

/-- A contiguous subsequence. -/
def seqInside (xs ys : List String) : Prop := ∃ l r, ys = l ++ (xs ++ r)

theorem seqInside_extendLeft (xs A B : List String) (h : seqInside xs B) :
    seqInside xs (A ++ B) := by
  obtain ⟨l, r, rfl⟩ := h
  exact ⟨A ++ l, r, by simp [List.append_assoc]⟩

theorem seqInside_extendRight (xs A B : List String) (h : seqInside xs A) :
    seqInside xs (A ++ B) := by
  obtain ⟨l, r, rfl⟩ := h
  exact ⟨l, r ++ B, by simp [List.append_assoc]⟩

theorem seqInside_trans (xs ys zs : List String) (h1 : seqInside xs ys)
    (h2 : seqInside ys zs) : seqInside xs zs := by
  obtain ⟨l1, r1, rfl⟩ := h1
  obtain ⟨l2, r2, rfl⟩ := h2
  exact ⟨l2 ++ l1, r1 ++ r2, by simp [List.append_assoc]⟩

theorem seqInside_flatMap {β : Type} (f : β → List String) (x : β) :
    ∀ L : List β, x ∈ L → seqInside (f x) (L.flatMap f) := by
  intro L
  induction L with
  | nil => intro h; simp at h
  | cons a t ih =>
    intro h
    rcases List.mem_cons.mp h with h | h
    · subst h
      rw [List.flatMap_cons]
      exact ⟨[], t.flatMap f, rfl⟩
    · rw [List.flatMap_cons]
      exact seqInside_extendLeft _ _ _ (ih h)

/-- The index self-assignment on the run vector is the identity: the
element found at `run_args.index(image_tag)` is `image_tag` itself. -/
theorem apply_index_assignment_noop (tag : String) (l : List String) :
    apply_index_assignment tag l = l := by
  unfold apply_index_assignment
  cases h : pyIndex tag l with
  | none => rfl
  | some i => exact pyIndex_set_self tag l i h

theorem build_run_args_structure (d : InspectData) :
    (build_run_args_from_inspect d).take 4 = ["run", "-d", "--name", lstripSlashes d.name] ∧
    (∀ b ∈ d.hostConfig.binds, seqInside ["-v", b] (build_run_args_from_inspect d)) ∧
    (∀ e ∈ d.config.env, seqInside ["-e", e] (build_run_args_from_inspect d)) ∧
    (∀ pb ∈ d.hostConfig.portBindings, ∀ b ∈ pb.2,
      seqInside (port_publish_args pb.1 b) (build_run_args_from_inspect d)) := by
  refine ⟨rfl, ?_, ?_, ?_⟩
  · intro b hb
    unfold build_run_args_from_inspect
    apply seqInside_extendRight
    apply seqInside_extendRight
    apply seqInside_extendRight
    apply seqInside_extendRight
    apply seqInside_extendRight
    apply seqInside_extendRight
    apply seqInside_extendRight
    apply seqInside_extendLeft
    exact seqInside_flatMap _ b _ hb
  · intro e he
    unfold build_run_args_from_inspect
    apply seqInside_extendRight
    apply seqInside_extendRight
    apply seqInside_extendRight
    apply seqInside_extendRight
    apply seqInside_extendRight
    apply seqInside_extendLeft
    exact seqInside_flatMap _ e _ he
  · intro pb hpb b hb
    unfold build_run_args_from_inspect
    apply seqInside_extendRight
    apply seqInside_extendRight
    apply seqInside_extendRight
    apply seqInside_extendRight
    apply seqInside_extendRight
    apply seqInside_extendRight
    apply seqInside_extendLeft
    exact seqInside_trans _ _ _ (seqInside_flatMap (port_publish_args pb.1) b pb.2 hb)
      (seqInside_flatMap _ pb _ hpb)

/-- C5: whenever the edit-and-rebuild flow reaches the final re-create,
the argument vector it submits is exactly
`build_run_args_from_inspect data` for the snapshot `data` inspected
from the initial state — before the rebuild, however `exec` transforms
the engine state — so the re-created container keeps the original
name (`--name`), bind mounts (`-v`), published ports (`-p`) and
environment (`-e`) (`src/server.py` lines 1213-1265 and 742-787). -/
theorem save_dockerfile_recreate_args {σ : Type} (eng : Engine σ) (s0 : σ)
    (container_id content : String) (argv : List String)
    (h : handle_save_dockerfile eng s0 container_id content = some argv) :
    ∃ data, eng.inspect s0 = some data ∧
      argv = build_run_args_from_inspect data ∧
      argv.take 4 = ["run", "-d", "--name", lstripSlashes data.name] ∧
      (∀ b ∈ data.hostConfig.binds, seqInside ["-v", b] argv) ∧
      (∀ e ∈ data.config.env, seqInside ["-e", e] argv) ∧
      (∀ pb ∈ data.hostConfig.portBindings, ∀ b ∈ pb.2,
        seqInside (port_publish_args pb.1 b) argv) := by
  unfold handle_save_dockerfile at h
  by_cases hc : pyStrip content = ""
  · rw [if_pos hc] at h
    exact absurd h (by simp)
  · rw [if_neg hc] at h
    cases hi : eng.inspect s0 with
    | none =>
      rw [hi] at h
      exact absurd h (by simp)
    | some data =>
      rw [hi] at h
      simp only [] at h
      cases hb : eng.exec s0 ["build", "-t",
          if data.config.image ≠ ""
          then data.config.image
          else lstripSlashes (if data.name ≠ "" then data.name else container_id),
          dockerfilesFolder (lstripSlashes (if data.name ≠ "" then data.name
            else container_id))] with
      | none =>
        rw [hb] at h
        exact absurd h (by simp)
      | some s1 =>
        rw [hb] at h
        simp only [Option.some.injEq] at h
        obtain ⟨h1, h2, h3, h4⟩ := build_run_args_structure data
        rw [apply_index_assignment_noop] at h
        exact ⟨data, rfl, h.symm, h ▸ h1, fun b hb => h ▸ h2 b hb,
          fun e he => h ▸ h3 e he, fun pb hpb b hbb => h ▸ h4 pb hpb b hbb⟩

def sampleInspect : InspectData :=
  { name := "/web", image := "img:1",
    config := { image := "img:1", env := ["A=1"], workingDir := "", user := "",
                exposedPorts := [], entrypoint := [], cmd := [] },
    hostConfig := { restartPolicyName := "", networkMode := "", binds := ["/h:/c"],
                    portBindings := [] },
    mounts := [] }

def sampleEngine : Engine Unit :=
  { inspect := fun _ => some sampleInspect, exec := fun s _ => some s }

/-- Witness for C5 at a concrete engine and snapshot. -/
theorem save_dockerfile_recreate_args_witness :
    ∃ data, sampleEngine.inspect () = some data ∧
      (["run", "-d", "--name", "web", "-v", "/h:/c", "-e", "A=1", "img:1"] : List String) =
        build_run_args_from_inspect data ∧
      (["run", "-d", "--name", "web", "-v", "/h:/c", "-e", "A=1", "img:1"] :
          List String).take 4 = ["run", "-d", "--name", lstripSlashes data.name] ∧
      (∀ b ∈ data.hostConfig.binds, seqInside ["-v", b]
        ["run", "-d", "--name", "web", "-v", "/h:/c", "-e", "A=1", "img:1"]) ∧
      (∀ e ∈ data.config.env, seqInside ["-e", e]
        ["run", "-d", "--name", "web", "-v", "/h:/c", "-e", "A=1", "img:1"]) ∧
      (∀ pb ∈ data.hostConfig.portBindings, ∀ b ∈ pb.2,
        seqInside (port_publish_args pb.1 b)
          ["run", "-d", "--name", "web", "-v", "/h:/c", "-e", "A=1", "img:1"]) :=
  save_dockerfile_recreate_args sampleEngine () "cid123" "FROM img:1"
    ["run", "-d", "--name", "web", "-v", "/h:/c", "-e", "A=1", "img:1"] (by decide)

/-! ## The icon upload handler (`_handle_upload_icon`,
`src/server.py` lines 1427-1531)

The multipart body is a byte string, modelled as a `String` with one
`Char` per byte; the handler only ever matches ASCII markers
(`Content-Disposition`, `filename=`, CRLF), for which the
`decode("utf-8", errors="ignore")` of the disposition line is the
identity.  `hashlib.md5(...).hexdigest()` is the abstract parameter
`md5hex`. -/

/-- Python `bytes.split(sep)` / `str.split(sep)` with a non-empty
separator: cut at every non-overlapping occurrence, left to right.  The
fuel argument only drives structural recursion; it starts at
`length s + 1` and every step consumes at least one character, so it is
never exhausted. -/
def pySplitGo (sep : List Char) : Nat → List Char → List Char → List (List Char)
  | 0, s, acc => [acc.reverse ++ s]
  | fuel + 1, s, acc =>
    match s with
    | [] => [acc.reverse]
    | c :: rest =>
      if startsWithSeq sep s && !sep.isEmpty then
        acc.reverse :: pySplitGo sep fuel (s.drop sep.length) []
      else pySplitGo sep fuel rest (c :: acc)

/-- Python `s.split(sep)` for a non-empty separator. -/
def pySplit (s sep : String) : List String :=
  (pySplitGo sep.data (s.data.length + 1) s.data []).map (fun cs => ⟨cs⟩)

/-- Python `s.startswith(pat)`. -/
def pyStartsWith (s pat : String) : Bool := startsWithSeq pat.data s.data

/-- Python `s.endswith(pat)`. -/
def pyEndsWith (s pat : String) : Bool := startsWithSeq pat.data.reverse s.data.reverse

/-- Python `s.find(pat)` on character lists (`none` for `-1`). -/
def findSeqIdx (pat : List Char) : List Char → Option Nat
  | [] => if pat.isEmpty then some 0 else none
  | b :: ss =>
    if startsWithSeq pat (b :: ss) then some 0
    else (findSeqIdx pat ss).map (· + 1)

/-- Python `s.find(pat)` / guarded `s.index(pat)`. -/
def pyFind (s pat : String) : Option Nat := findSeqIdx pat.data s.data

/-- Python `s.rfind(c)` for a single character. -/
def lastIdxOf (c : Char) : List Char → Option Nat
  | [] => none
  | b :: t =>
    match lastIdxOf c t with
    | some i => some (i + 1)
    | none => if b = c then some 0 else none

/-- The final path component of `pathlib.Path(s)` (POSIX rules: split on
`/`, empty components ignored). -/
def pathFinalComponent (s : String) : String :=
  match ((pySplit s "/").filter (fun c => c ≠ "")).getLast? with
  | some n => n
  | none => ""

/-- `pathlib.Path(filename).suffix`: the extension of the final
component, dot included; CPython returns it only when the last dot is
neither the first nor the last character of the name. -/
def pySuffix (filename : String) : String :=
  let n := pathFinalComponent filename
  match lastIdxOf '.' n.data with
  | some i => if 0 < i ∧ i < n.length - 1 then n.drop i else ""
  | none => ""

/-- Boundary extraction from the Content-Type header
(`src/server.py` lines 1434-1440): the first `;`-separated piece whose
stripped form starts with `boundary=` yields `piece[9:].strip()`. -/
def parse_boundary (content_type : String) : Option String :=
  (pySplit content_type ";").findSome? (fun part =>
    let p := pyStrip part
    if pyStartsWith p "boundary=" then some (pyStrip (p.drop 9)) else none)

/-- The loop's byte-level part filter (`src/server.py` line 1466):
`b"Content-Disposition" in part and b'filename=' in part`. -/
def uploadPartPred (part : String) : Bool :=
  pyContains part "Content-Disposition" && pyContains part "filename="

/-- The first CRLF-separated line of the part that contains
`Content-Disposition`, decoded (the decode is the identity on the
byte-as-char model) (`src/server.py` lines 1468-1475). -/
def dispositionLineOf (part : String) : Option String :=
  (pySplit part "\r\n").find? (fun line => pyContains line "Content-Disposition")

/-- Whether the loop stops at this part.  The `break`
(`src/server.py` line 1500) sits inside
`if disposition_line and 'filename=' in disposition_line:`
(line 1477), so a part that passes the byte-level filter but whose
disposition line lacks `filename=` assigns nothing and the loop
continues with the later parts; the part the handler processes is
therefore the first one passing both tests. -/
def upload_part_selected (part : String) : Bool :=
  uploadPartPred part &&
    match dispositionLineOf part with
    | some dl => pyContains dl "filename="
    | none => false

inductive ExtractOutcome where
  | crash
  | result (filename : Option String) (fileData : Option String)
deriving DecidableEq

/-- Filename extraction from the disposition line
(`src/server.py` lines 1478-1491): quoted form first — a missing
closing quote makes `str.index` raise an uncaught `ValueError`, the
`.error` outcome — then the unquoted form, cut at `;` and stripped. -/
def extract_filename (dl : String) : Except Unit (Option String) :=
  if pyContains dl "filename=\"" then
    match pyFind dl "filename=\"" with
    | none => .ok none
    | some idx =>
      match pyFind (dl.drop (idx + 10)) "\"" with
      | none => .error ()
      | some e => .ok (some ((dl.drop (idx + 10)).take e))
  else if pyContains dl "filename=" then
    match pyFind dl "filename=" with
    | none => .ok none
    | some idx =>
      let rest := dl.drop (idx + 9)
      if pyContains rest ";" then
        match pyFind rest ";" with
        | none => .ok none
        | some j => .ok (some (pyStrip (rest.take j)))
      else .ok (some (pyStrip rest))
  else .ok none

/-- Segment content: everything after the first blank line, minus one
trailing CRLF (`src/server.py` lines 1493-1499). -/
def extract_file_content (part : String) : Option String :=
  match pyFind part "\r\n\r\n" with
  | none => none
  | some i =>
    let fd := part.drop (i + 4)
    if pyEndsWith fd "\r\n" then fd.dropRight 2 else fd

/-- The loop body for the part the loop stops at
(`src/server.py` lines 1467-1500).  Both the filename and the content
are extracted only inside the `filename=`-bearing-disposition
conditional; for a part failing that conditional the source assigns
nothing and continues the loop (`.result none none` here — unreachable
when the part was selected by `upload_part_selected`). -/
def extract_from_part (part : String) : ExtractOutcome :=
  match dispositionLineOf part with
  | none => .result none none
  | some dl =>
    if pyContains dl "filename=" then
      match extract_filename dl with
      | .error _ => .crash
      | .ok fn => .result fn (extract_file_content part)
    else .result none none

inductive UploadOutcome where
  | rejected (code : Nat) (msg : String)
  | crashed
  | stored (name : String) (fileData : String)
deriving DecidableEq

def MAX_UPLOAD_SIZE : Nat := 5 * 1024 * 1024

def allowed_extensions : List String :=
  [".png", ".jpg", ".jpeg", ".gif", ".svg", ".webp", ".ico"]

structure UploadRequest where
  contentType : String
  contentLength : Nat
  body : String
deriving DecidableEq

/-- The tail of `_handle_upload_icon` after the part loop
(`src/server.py` lines 1502-1531): reject when no file content or no
filename was extracted (`not file_data or not filename` — `None` or
empty), validate the lowercased extension of
`Path(filename).suffix` against the allow-list, and store the bytes
under `md5(file_data).hexdigest()[:12] + file_ext`. -/
def finish_upload (md5hex : String → String) (fn fd : Option String) : UploadOutcome :=
  match fn, fd with
  | some filename, some fileData =>
    if fileData = "" ∨ filename = "" then .rejected 400 "No file found in request"
    else if asciiLower (pySuffix filename) ∉ allowed_extensions then
      .rejected 400 "Invalid file type"
    else .stored ((md5hex fileData).take 12 ++ asciiLower (pySuffix filename)) fileData
  | _, _ => .rejected 400 "No file found in request"

/-- `_handle_upload_icon` (`src/server.py` lines 1427-1531).  `body` is
the request stream; `rfile.read(content_length)` is `body.take
contentLength`.  The 413 and invalid-type messages are abbreviated (the
source interpolates the size cap and a `set`-ordered extension join into
them); every message tested by a claim is verbatim. -/
def handle_upload_icon (md5hex : String → String) (req : UploadRequest) : UploadOutcome :=
  if ¬ pyStartsWith req.contentType "multipart/form-data" then
    .rejected 400 "Content-Type must be multipart/form-data"
  else
    match parse_boundary req.contentType with
    | none => .rejected 400 "No boundary found in Content-Type"
    | some boundary =>
      if boundary = "" then .rejected 400 "No boundary found in Content-Type"
      else if req.contentLength > MAX_UPLOAD_SIZE then .rejected 413 "File too large"
      else if req.contentLength = 0 then .rejected 400 "No file uploaded"
      else
        match (pySplit (req.body.take req.contentLength) ("--" ++ boundary)).find?
            upload_part_selected with
        | none => .rejected 400 "No file found in request"
        | some part =>
          match extract_from_part part with
          | .crash => .crashed
          | .result fn fd => finish_upload md5hex fn fd

theorem finish_upload_stored_inv (md5hex : String → String) (fn fd : Option String)
    (name fileData : String) (h : finish_upload md5hex fn fd = .stored name fileData) :
    ∃ filename, fn = some filename ∧ fd = some fileData ∧
      fileData ≠ "" ∧ filename ≠ "" ∧
      asciiLower (pySuffix filename) ∈ allowed_extensions ∧
      name = (md5hex fileData).take 12 ++ asciiLower (pySuffix filename) := by
  cases fn with
  | none => simp [finish_upload] at h
  | some filename =>
    cases fd with
    | none => simp [finish_upload] at h
    | some fileData' =>
      simp only [finish_upload] at h
      by_cases hne : fileData' = "" ∨ filename = ""
      · rw [if_pos hne] at h
        exact absurd h (by simp)
      · rw [if_neg hne] at h
        by_cases hal : asciiLower (pySuffix filename) ∉ allowed_extensions
        · rw [if_pos hal] at h
          exact absurd h (by simp)
        · rw [if_neg hal] at h
          simp only [UploadOutcome.stored.injEq] at h
          obtain ⟨hname, hdata⟩ := h
          subst hdata
          push_neg at hne
          exact ⟨filename, rfl, rfl, hne.1, hne.2, not_not.mp hal, hname.symm⟩

theorem handle_upload_icon_stored_inv (md5hex : String → String) (req : UploadRequest)
    (name fileData : String)
    (h : handle_upload_icon md5hex req = .stored name fileData) :
    ∃ boundary part filename,
      parse_boundary req.contentType = some boundary ∧
      (pySplit (req.body.take req.contentLength) ("--" ++ boundary)).find? upload_part_selected
        = some part ∧
      extract_from_part part = .result (some filename) (some fileData) ∧
      fileData ≠ "" ∧ filename ≠ "" ∧
      asciiLower (pySuffix filename) ∈ allowed_extensions ∧
      name = (md5hex fileData).take 12 ++ asciiLower (pySuffix filename) := by
  unfold handle_upload_icon at h
  split at h
  · exact absurd h (by simp)
  · split at h
    · exact absurd h (by simp)
    · rename_i boundary hbd
      split at h
      · exact absurd h (by simp)
      · split at h
        · exact absurd h (by simp)
        · split at h
          · exact absurd h (by simp)
          · split at h
            · exact absurd h (by simp)
            · rename_i part hpart
              split at h
              · exact absurd h (by simp)
              · rename_i fn fd hex
                obtain ⟨filename, hfn, hfd, hne1, hne2, hall, hname⟩ :=
                  finish_upload_stored_inv md5hex fn fd name fileData h
                refine ⟨boundary, part, filename, hbd, hpart, ?_, hne1, hne2, hall, hname⟩
                rw [hex, hfn, hfd]

/-- C8: an accepted icon upload stores the file under a name that is a
deterministic function of the file bytes and the validated extension:
exactly the first 12 hex characters of the content hash followed by the
lowercased extension of the uploaded filename; consequently any other
accepted upload of the same bytes whose filename has the same lowercased
extension receives the identical stored name
(`src/server.py` lines 1507-1515). -/
theorem upload_icon_stored_name_spec (md5hex : String → String) (req : UploadRequest)
    (name fileData : String)
    (h : handle_upload_icon md5hex req = .stored name fileData) :
    ∃ boundary part filename,
      parse_boundary req.contentType = some boundary ∧
      (pySplit (req.body.take req.contentLength) ("--" ++ boundary)).find? upload_part_selected
        = some part ∧
      extract_from_part part = .result (some filename) (some fileData) ∧
      asciiLower (pySuffix filename) ∈ allowed_extensions ∧
      name = (md5hex fileData).take 12 ++ asciiLower (pySuffix filename) ∧
      (∀ (req' : UploadRequest) (name' boundary' part' filename' : String),
        handle_upload_icon md5hex req' = .stored name' fileData →
        parse_boundary req'.contentType = some boundary' →
        (pySplit (req'.body.take req'.contentLength) ("--" ++ boundary')).find?
            upload_part_selected = some part' →
        extract_from_part part' = .result (some filename') (some fileData) →
        asciiLower (pySuffix filename') = asciiLower (pySuffix filename) →
        name' = name) := by
  obtain ⟨boundary, part, filename, hbd, hpart, hex, _, _, hallowed, hname⟩ :=
    handle_upload_icon_stored_inv md5hex req name fileData h
  refine ⟨boundary, part, filename, hbd, hpart, hex, hallowed, hname, ?_⟩
  intro req' name' boundary' part' filename' h' hbd' hpart' hex' hsuffix
  obtain ⟨b2, p2, f2, hbd2, hpart2, hex2, _, _, _, hname2⟩ :=
    handle_upload_icon_stored_inv md5hex req' name' fileData h'
  have hb : b2 = boundary' := by
    have := hbd2.symm.trans hbd'
    exact Option.some.inj this
  subst hb
  have hp : p2 = part' := by
    have := hpart2.symm.trans hpart'
    exact Option.some.inj this
  subst hp
  have hf : f2 = filename' := by
    have := hex2.symm.trans hex'
    simp only [ExtractOutcome.result.injEq, Option.some.injEq] at this
    exact this.1
  subst hf
  rw [hname2, hsuffix, hname]

def uploadMd5Sample : String → String := fun _ => "0b75926ab9a9ffffffffffff"

def uploadReqStored : UploadRequest :=
  { contentType := "multipart/form-data; boundary=BND",
    contentLength := 182,
    body := "--BND\r\nContent-Disposition: form-data; name=\"note\"\r\n" ++
      "X-Ignore: filename=decoy.txt\r\n\r\nNOTE\r\n" ++
      "--BND\r\nContent-Disposition: form-data; name=\"file\"; " ++
      "filename=\"real.PNG\"\r\n\r\nREALDATA\r\n--BND--" }

set_option maxRecDepth 200000 in
/-- Witness for C8: a concrete multipart upload whose first
marker-bearing segment has no `filename=` on its disposition line (the
loop skips it and continues, as in the source) and whose second segment
carries bytes `REALDATA` with filename `real.PNG`; the file is stored
as `0b75926ab9a9.png` — truncated content hash plus lowercased
extension. -/
theorem upload_icon_stored_name_spec_witness :
    ∃ boundary part filename,
      parse_boundary uploadReqStored.contentType = some boundary ∧
      (pySplit (uploadReqStored.body.take uploadReqStored.contentLength)
          ("--" ++ boundary)).find? upload_part_selected = some part ∧
      extract_from_part part = .result (some filename) (some "REALDATA") ∧
      asciiLower (pySuffix filename) ∈ allowed_extensions ∧
      "0b75926ab9a9.png" = (uploadMd5Sample "REALDATA").take 12 ++
        asciiLower (pySuffix filename) ∧
      (∀ (req' : UploadRequest) (name' boundary' part' filename' : String),
        handle_upload_icon uploadMd5Sample req' = .stored name' "REALDATA" →
        parse_boundary req'.contentType = some boundary' →
        (pySplit (req'.body.take req'.contentLength) ("--" ++ boundary')).find?
            upload_part_selected = some part' →
        extract_from_part part' = .result (some filename') (some "REALDATA") →
        asciiLower (pySuffix filename') = asciiLower (pySuffix filename) →
        name' = "0b75926ab9a9.png") :=
  upload_icon_stored_name_spec uploadMd5Sample uploadReqStored "0b75926ab9a9.png" "REALDATA"
    (by decide)

/-- C10: a multipart upload whose matching segment yields an empty byte
string as file content is rejected exactly like a missing file — even
when the segment carries a well-formed disposition header with any
filename (an allow-listed extension included) — so a zero-byte file is
never stored (`src/server.py` lines 1493-1504). -/
theorem upload_icon_empty_file_rejected (md5hex : String → String) (req : UploadRequest)
    (boundary part filename : String)
    (hct : pyStartsWith req.contentType "multipart/form-data" = true)
    (hb : parse_boundary req.contentType = some boundary)
    (hbne : boundary ≠ "")
    (hlen1 : req.contentLength ≤ MAX_UPLOAD_SIZE)
    (hlen2 : req.contentLength ≠ 0)
    (hfind : (pySplit (req.body.take req.contentLength) ("--" ++ boundary)).find?
        upload_part_selected = some part)
    (hex : extract_from_part part = .result (some filename) (some "")) :
    handle_upload_icon md5hex req = .rejected 400 "No file found in request" := by
  have hlt : ¬ req.contentLength > MAX_UPLOAD_SIZE := not_lt.mpr hlen1
  simp [handle_upload_icon, hct, hb, hbne, hlt, hlen2, hfind, hex, finish_upload]

def uploadReqEmpty : UploadRequest :=
  { contentType := "multipart/form-data; boundary=XYZ",
    contentLength := 84,
    body := "--XYZ\r\nContent-Disposition: form-data; name=\"file\"; " ++
      "filename=\"icon.png\"\r\n\r\n\r\n--XYZ--" }

set_option maxRecDepth 100000 in
/-- Witness for C10: a concrete multipart body whose file segment has a
valid `filename="icon.png"` disposition but empty content is rejected
with the missing-file error. -/
theorem upload_icon_empty_file_rejected_witness :
    handle_upload_icon (fun _ => "0b75926ab9a9ffffffffffff") uploadReqEmpty =
      .rejected 400 "No file found in request" :=
  upload_icon_empty_file_rejected (fun _ => "0b75926ab9a9ffffffffffff") uploadReqEmpty
    "XYZ"
    "\r\nContent-Disposition: form-data; name=\"file\"; filename=\"icon.png\"\r\n\r\n\r\n"
    "icon.png"
    (by decide) (by decide) (by decide) (by decide) (by decide) (by decide) (by decide)

end DockerWebControl
